import Mathlib

/-!
Verification of the trace/log correlation engine of the deklarative
repository (package `tracing`): a shallow embedding of the depth and
policy engine, the key/value-to-attribute projection, the correlation
wrappers (`loggingSpan`, `spanLogger`), the builder entry point
(`TracerBuilder.Trace`), and the SDK lifecycle fallbacks, together with
theorems about the properties the specification states for them.
-/

namespace Deklarative

/-- A Go `interface{}` value as it occurs in the key/value lists handed to
loggers and in attribute values: JSON-primitive values, `nil`, and a
catch-all for any other (non-string-keyed) value. -/
inductive GoValue where
  | null
  | str (s : String)
  | int (n : Int)
  | bool (b : Bool)
  | float (tag : Nat)
  | other (tag : Nat)
  deriving DecidableEq, Repr

/-- An OpenTelemetry `attribute.Value`: either the invalid zero value or a
wrapped Go value. `attribute.Any` stores the given value. -/
inductive AttrValue where
  | invalid
  | val (v : GoValue)
  deriving DecidableEq, Repr

/-- `attribute.Value.AsInterface`: the invalid zero value yields `nil`. -/
def AttrValue.asInterface : AttrValue → GoValue
  | .invalid => .null
  | .val v => v

/-- An OpenTelemetry `attribute.KeyValue`. -/
structure KeyValue where
  key : String
  value : AttrValue
  deriving DecidableEq, Repr

/-- The zero value of `attribute.KeyValue`: empty key, invalid value. This is
what a `make`-allocated slice slot holds when the loop `continue`s past it. -/
def zeroKeyValue : KeyValue := ⟨"", .invalid⟩

/-- `LogAttributePrefix` from `logging_span.go`: the prefix used when
registering a logged attribute with a Span. -/
def LogAttributePrefix : String := "log-attr-"

/-- `SpanAttributePrefix` from `logging_span.go`: the prefix used when logging
an attribute registered with a Span. -/
def SpanAttributePrefix : String := "span-attr-"

/-- `keysAndValuesToAttrs` from `span_logger.go` (lines 72-90): if the list
has odd length, return `nil` (no attributes); otherwise allocate a slice of
`len/2` `attribute.KeyValue` slots and fill slot `i` with
`attribute.Any(LogAttributePrefix+key, value)` for the pair at indices
`2i, 2i+1` when the key is a string, leaving the zero `attribute.KeyValue`
in the slot (`continue`) when it is not. -/
def keysAndValuesToAttrs (keysAndValues : List GoValue) : List KeyValue :=
  if keysAndValues.length % 2 != 0 then
    []
  else
    (List.range (keysAndValues.length / 2)).map fun i =>
      match keysAndValues.get? (2 * i) with
      | some (.str key) =>
        ⟨LogAttributePrefix ++ key, .val (((keysAndValues.get? (2 * i + 1)).getD .null))⟩
      | _ => zeroKeyValue

/-- `kvListToLogAttrs` from `logging_span.go`: flatten `attribute.KeyValue`s
into an alternating key/value `[]interface{}` list, prefixing every key
with `SpanAttributePrefix`. -/
def kvListToLogAttrs : List KeyValue → List GoValue
  | [] => []
  | item :: rest =>
    .str (SpanAttributePrefix ++ item.key) :: item.value.asInterface :: kvListToLogAttrs rest

/-- `getDepth` from the depth engine: `0` for a new root; otherwise the
context-carried depth plus one, or `0` when the context carries no depth. -/
def getDepth (parentDepth : Option Nat) (isNewRoot : Bool) : Nat :=
  if isNewRoot then 0
  else
    match parentDepth with
    | none => 0
    | some d => d + 1

/-- The depth reached by a sequence of nested `Trace` calls without new-root
flags: the outermost call sees a context with no depth; each nested call sees
the depth its parent registered with `withDepth`. -/
def nestedDepth : Nat → Nat
  | 0 => getDepth none false
  | n + 1 => getDepth (some (nestedDepth n)) false

/-- `NthLogLevelIncrease(n)`: increases the verbosity once every `n` traces
of depth; depth `0` never increases. -/
def NthLogLevelIncrease (n : Nat) : Nat → Nat := fun depth =>
  if depth = 0 then 0
  else if depth % n = 0 then 1
  else 0

/-- `NoLogLevelIncrease`: never bumps the verbosity. -/
def NoLogLevelIncrease : Nat → Nat := fun _ => 0

/-- `getLogLevelIncreaser`: the `LogLevelIncreaser` carried by the context,
or `NthLogLevelIncrease(1)` when the context carries none. -/
def getLogLevelIncreaser (fromCtx : Option (Nat → Nat)) : Nat → Nat :=
  match fromCtx with
  | some lli => lli
  | none => NthLogLevelIncrease 1

/-- The "actor" value handed to `TracerBuilder.WithActor`, split by the cases
the type switch in `tracerName` distinguishes: a plain string, a value
implementing `TracerNamed` (carrying what `TracerName()` returns), `nil`,
the four standard-stream sentinels, and any other value (carrying what
`fmt.Sprintf("%T", obj)` formats for it). -/
inductive Actor where
  | str (s : String)
  | tracerNamed (name : String)
  | goNil
  | stdin
  | stdout
  | stderr
  | ioDiscard
  | other (typeName : String)
  deriving DecidableEq, Repr

/-- `tracerName` from the naming module: the string itself, the
`TracerName()` result, `""` for `nil`, fixed human-friendly names for the
standard-stream sentinels, and the formatted type name otherwise. -/
def tracerName : Actor → String
  | .str t => t
  | .tracerNamed n => n
  | .goNil => ""
  | .stdin => "os.Stdin"
  | .stdout => "os.Stdout"
  | .stderr => "os.Stderr"
  | .ioDiscard => "io.Discard"
  | .other t => t

/-- `fmtSpanName`: joins the tracer name and the function name with `"."`
when both are non-empty, uses the non-empty one alone otherwise, and falls
back to the fixed placeholder when both are empty. -/
def fmtSpanName (tracerName spanName : String) : String :=
  if tracerName.length != 0 && spanName.length != 0 then
    tracerName ++ "." ++ spanName
  else
    let name := tracerName ++ spanName
    if name.length != 0 then name
    else "<unnamed_span>"

/-- An OpenTelemetry status code (`codes.Code`). -/
inductive Code where
  | unset
  | ok
  | error
  deriving DecidableEq, Repr

/-- `codes.Code.String()`. -/
def Code.string : Code → String
  | .unset => "Unset"
  | .ok => "Ok"
  | .error => "Error"

/-- `spanStatusCodeKey` from `logging_span.go`. -/
def spanStatusCodeKey : String := "span-status-code"

/-- `spanStatusDescriptionKey` from `logging_span.go`. -/
def spanStatusDescriptionKey : String := "span-status-description"

/-- The key/value argument list of the "span status change" log record built
by `loggingSpan.SetStatus`: always the status-code pair, and the
status-description pair only when the code is `codes.Error`. -/
def setStatusLogArgs (code : Code) (description : String) : List GoValue :=
  let args : List GoValue := [.str spanStatusCodeKey, .str code.string]
  if code = .error then
    args ++ [.str spanStatusDescriptionKey, .str description]
  else
    args

/-- A structured log record: a message plus its alternating key/value list. -/
structure LogRecord where
  msg : String
  args : List GoValue
  deriving DecidableEq, Repr

/-- A Go error value: `Option GoErr` models a possibly-nil `error`. -/
structure GoErr where
  msg : String
  deriving DecidableEq, Repr

/-- An action an `ErrRegisterFunc` can perform against the span/logger pair
it is handed. -/
inductive SpanAction where
  | recordError (e : GoErr)
  | addEvent (name : String)
  | setStatus (c : Code) (d : String)
  | setAttribute (kv : KeyValue)
  | setName (n : String)
  | logDirectly (r : LogRecord)
  deriving DecidableEq, Repr

/-- An `ErrRegisterFunc` observed through the actions it performs on the
span/logger pair for a given (possibly nil) captured error value. -/
def ErrRegisterFunc := Option GoErr → List SpanAction

/-- `DefaultErrRegisterFunc` from `types.go`: registers the error with the
span using `span.RecordError(err)` when it is non-nil, and does nothing
otherwise. -/
def DefaultErrRegisterFunc : ErrRegisterFunc := fun err =>
  match err with
  | some e => [.recordError e]
  | none => []

/-- One event observed while `loggingSpan.End` runs. -/
inductive EndEvent where
  | errFnInvoked (v : Option GoErr)
  | act (a : SpanAction)
  | endingSpanLog
  | underlyingEnd
  deriving DecidableEq, Repr

/-- The state of a `loggingSpan` relevant to `End`: the captured error cell
(`err` is the registered `*error`; its payload is the error value the pointer
holds at `End` time) and the configured `ErrRegisterFunc` (`none` models a
nil Go function value). -/
structure LoggingSpan where
  err : Option (Option GoErr)
  errFn : Option ErrRegisterFunc

/-- `loggingSpan.End` from `logging_span.go` (lines 35-47): when a capture
address was registered, invoke the configured `ErrRegisterFunc` (defaulting
to `DefaultErrRegisterFunc` when nil) once with the value the pointer holds;
then log "ending span" and end the underlying span. -/
def LoggingSpan.End (s : LoggingSpan) : List EndEvent :=
  (match s.err with
   | none => []
   | some v =>
     let errFn := match s.errFn with
       | some f => f
       | none => DefaultErrRegisterFunc
     .errFnInvoked v :: (errFn v).map .act)
  ++ [.endingSpanLog, .underlyingEnd]

/-- A `logr.Logger`: either the discard logger, or a sink-backed logger with
a current verbosity `level`, the sink's maximum enabled verbosity
`threshold`, and an accumulated name. `V` on the discard logger returns the
discard logger again, so `log == logr.Discard()` stays decidable. -/
inductive Logger where
  | discard
  | sink (level : Nat) (threshold : Nat) (name : List String)
  deriving DecidableEq, Repr

/-- `Logger.V`: returns a logger whose verbosity is raised by `n`. -/
def Logger.V : Logger → Nat → Logger
  | .discard, _ => .discard
  | .sink lvl th nm, n => .sink (lvl + n) th nm

/-- `Logger.Enabled`: the discard logger is never enabled; a sink-backed
logger is enabled while its verbosity is at or below the sink threshold. -/
def Logger.Enabled : Logger → Bool
  | .discard => false
  | .sink lvl th _ => lvl ≤ th

/-- `Logger.WithName`: appends a name segment. -/
def Logger.WithName : Logger → String → Logger
  | .discard, _ => .discard
  | .sink lvl th nm, n => .sink lvl th (nm ++ [n])

/-- `isDiscard` from the builder module: `log == logr.Discard()`. -/
def isDiscard : Logger → Bool
  | .discard => true
  | .sink _ _ _ => false

/-- The ambient context state `TracerBuilder.Trace` reads its logger from:
the context-carried logger, if any, and the process-wide global logger the
default acquire function falls back to (`logr.Discard()` at init). -/
structure Ctx where
  log : Option Logger
  globalLog : Logger
  deriving DecidableEq, Repr

/-- `LoggerFromContext` with the default acquire function: the
context-carried logger, else the global logger. -/
def LoggerFromContext (ctx : Ctx) : Logger :=
  match ctx.log with
  | some l => l
  | none => ctx.globalLog

/-- The `TracerBuilder` fields `Trace` reads on the logger-resolution and
short-circuit path: the actor, the logger override, the `AddLevel` delta,
and the attributes accumulated by `WithAttributes`. -/
structure TracerBuilder where
  actor : Actor
  log : Option Logger
  addLevel : Nat
  spanStartAttrs : List KeyValue
  deriving DecidableEq, Repr

/-- How the logger returned from `Trace` is built: the short-circuit branch
returns the resolved logger itself, the normal branch returns a `spanLogger`
wrapping the name-qualified logger. -/
inductive ReturnedLogger where
  | plain (l : Logger)
  | spanWrapped (l : Logger)
  deriving DecidableEq, Repr

/-- The observable outcome of one `TracerBuilder.Trace` call. -/
structure TraceResult where
  records : List LogRecord
  spanViaProvider : Bool
  spanIsNoop : Bool
  retLogger : ReturnedLogger
  ctxLog : Logger
  deriving DecidableEq, Repr

/-- The logger `Trace` resolves before the enablement gate: the builder
override, else the context logger, with the `AddLevel` delta applied. -/
def resolveTraceLogger (b : TracerBuilder) (ctx : Ctx) : Logger :=
  let log := match b.log with
    | some l => l
    | none => LoggerFromContext ctx
  if b.addLevel != 0 then log.V b.addLevel else log

/-- `TracerBuilder.Trace`: resolve the logger and apply the verbosity delta;
if the result is neither the discard logger nor enabled, short-circuit with a
no-op span started from the static no-op tracer and the resolved logger;
otherwise qualify the name, emit the "starting span" record (with the start
attributes as log values) if the logger is enabled, create the span through
the resolved provider, and return the wrapped pair. -/
def Trace (b : TracerBuilder) (ctx : Ctx) (fnName : String)
    (opts : List KeyValue) : TraceResult :=
  let log := resolveTraceLogger b ctx
  if ¬ isDiscard log ∧ ¬ log.Enabled then
    { records := []
      spanViaProvider := false
      spanIsNoop := true
      retLogger := .plain log
      ctxLog := log }
  else
    let tpName := tracerName b.actor
    let spanName := fmtSpanName tpName fnName
    let named := log.WithName spanName
    let attrs := b.spanStartAttrs ++ opts
    { records :=
        if named.Enabled then
          [{ msg := "starting span", args := kvListToLogAttrs attrs }]
        else []
      spanViaProvider := true
      spanIsNoop := false
      retLogger := .spanWrapped named
      ctxLog := log }

/-- An upstream `trace.TracerProvider` as `upstreamConverter` sees it: for
each SDK lifecycle operation, `none` when the underlying provider does not
implement it, and `some r` when it implements it and returns `r`. -/
structure UpstreamProvider where
  shutdownImpl : Option (Option GoErr)
  forceFlushImpl : Option (Option GoErr)
  deriving DecidableEq, Repr

/-- A full `TracerProvider` (whose interface always carries the SDK
operations) usable as the converter's `underlying` fallback. -/
structure UnderlyingProvider where
  shutdownResult : Option GoErr
  forceFlushResult : Option GoErr
  deriving DecidableEq, Repr

/-- `upstreamConverter` from `trace_sdk.go`. -/
structure UpstreamConverter where
  upstream : UpstreamProvider
  underlying : Option UnderlyingProvider
  deriving DecidableEq, Repr

/-- `fromUpstream`: wraps an upstream provider with no underlying fallback. -/
def fromUpstream (u : UpstreamProvider) : UpstreamConverter := ⟨u, none⟩

/-- `upstreamConverter.Shutdown`: delegate to the upstream provider when it
implements `Shutdown`, else to the underlying provider when present, else
return `nil`. -/
def UpstreamConverter.Shutdown (c : UpstreamConverter) : Option GoErr :=
  match c.upstream.shutdownImpl with
  | some r => r
  | none =>
    match c.underlying with
    | some u => u.shutdownResult
    | none => none

/-- `upstreamConverter.ForceFlush`: delegate to the upstream provider when it
implements `ForceFlush`, else to the underlying provider when present, else
return `nil`. -/
def UpstreamConverter.ForceFlush (c : UpstreamConverter) : Option GoErr :=
  match c.upstream.forceFlushImpl with
  | some r => r
  | none =>
    match c.underlying with
    | some u => u.forceFlushResult
    | none => none

/-- `callSDKProvider` from `trace_sdk.go`: the selected provider either does
not convert to `SDKTracerProvider` (`none`; the call returns `nil`) or does,
and the operation's own result (`some r`) is returned to the caller as-is. -/
def callSDKProvider (sdkOp : Option (Option GoErr)) : Option GoErr :=
  match sdkOp with
  | none => none
  | some r => r

/-- A string has length zero exactly when it is the empty string. -/
theorem strLenZero (s : String) : s.length = 0 ↔ s = "" := by
  cases s with
  | mk data => cases data <;> simp [String.length, String.ext_iff]

/-- C2: the depth of a new span is 0 when the new-root flag is set, the
context-carried parent depth plus 1 otherwise, and 0 when the context
carries no depth; hence the Nth-level-deep child of a nested sequence of
`Trace` calls without new-root flags has depth N, the outermost call having
depth 0. -/
theorem trace_depth_rules (p : Option Nat) (d n : Nat) :
    getDepth p true = 0
    ∧ getDepth (some d) false = d + 1
    ∧ getDepth none false = 0
    ∧ nestedDepth n = n := by
  refine ⟨rfl, rfl, rfl, ?_⟩
  induction n with
  | zero => rfl
  | succ k ih => simp [nestedDepth, getDepth, ih]

/-- C5: for every N ≥ 1, `NthLogLevelIncrease(N)` returns 1 exactly when the
depth is a nonzero multiple of N and 0 otherwise, and `NoLogLevelIncrease`
returns 0 at every depth. -/
theorem log_level_increase_policies (n depth : Nat) (h : 1 ≤ n) :
    NthLogLevelIncrease n depth = (if depth % n = 0 ∧ depth ≠ 0 then 1 else 0)
    ∧ NoLogLevelIncrease depth = 0 := by
  refine ⟨?_, rfl⟩
  unfold NthLogLevelIncrease
  by_cases h0 : depth = 0
  · subst h0
    simp
  · by_cases hm : depth % n = 0 <;> simp [h0, hm]

/-- Witness for C5: the N = 2 policy at depth 4 increases by 1, and the
never-increase policy stays at 0. -/
theorem log_level_increase_policies_witness :
    NthLogLevelIncrease 2 4 = (if 4 % 2 = 0 ∧ (4 : Nat) ≠ 0 then 1 else 0)
    ∧ NoLogLevelIncrease 4 = 0 :=
  log_level_increase_policies 2 4 (by decide)

/-- C10: a context carrying no `LogLevelIncreaser` resolves to the
`NthLogLevelIncrease(1)` policy, so by default every depth d ≥ 1 raises the
verbosity by exactly 1 and depth 0 raises it by 0. -/
theorem default_log_level_increaser (d : Nat) (h : 1 ≤ d) :
    getLogLevelIncreaser none = NthLogLevelIncrease 1
    ∧ getLogLevelIncreaser none d = 1
    ∧ getLogLevelIncreaser none 0 = 0 := by
  refine ⟨rfl, ?_, rfl⟩
  show NthLogLevelIncrease 1 d = 1
  unfold NthLogLevelIncrease
  simp [Nat.mod_one, Nat.one_le_iff_ne_zero.mp h]

/-- Witness for C10: at depth 2, the default policy raises verbosity by 1. -/
theorem default_log_level_increaser_witness :
    getLogLevelIncreaser none = NthLogLevelIncrease 1
    ∧ getLogLevelIncreaser none 2 = 1
    ∧ getLogLevelIncreaser none 0 = 0 :=
  default_log_level_increaser 2 (by decide)

/-- C1 (evaluation at the failing input): on the key/value list
`["hello-4", true, 123, false]` — malformed because index 2 holds a
non-string key — `keysAndValuesToAttrs` does not drop the projection: it
returns a two-slot attribute slice holding the well-formed pair's attribute
`log-attr-hello-4 = true` next to a zero-value placeholder, contradicting
the repository's own `Test_spanLogger_args` expectation that such calls set
no attributes. The odd-length case does return no attributes. -/
theorem projection_on_malformed_inputs :
    keysAndValuesToAttrs [.str "hello-4", .bool true, .int 123, .bool false]
      = [⟨"log-attr-hello-4", .val (.bool true)⟩, zeroKeyValue]
    ∧ keysAndValuesToAttrs [.str "hello-4", .bool true, .int 123, .bool false] ≠ []
    ∧ keysAndValuesToAttrs [.str "hello-2"] = [] := by
  exact ⟨by decide, by decide, by decide⟩

/-- C4: the "span status change" record's argument list always carries the
status-code key; it carries the status-description key exactly when the code
is `codes.Error`, in which case the description value is included; in
particular `SetStatus(OK, "desc")` never surfaces `"desc"` and
`SetStatus(Error, "desc")` always does. -/
theorem set_status_description_only_on_error (code : Code) (desc : String) :
    GoValue.str spanStatusCodeKey ∈ setStatusLogArgs code desc
    ∧ ((GoValue.str spanStatusDescriptionKey ∈ setStatusLogArgs code desc) ↔ code = .error)
    ∧ (code = .error →
        setStatusLogArgs code desc
          = [.str spanStatusCodeKey, .str code.string,
             .str spanStatusDescriptionKey, .str desc])
    ∧ GoValue.str "desc" ∉ setStatusLogArgs .ok "desc"
    ∧ GoValue.str "desc" ∈ setStatusLogArgs .error "desc" := by
  refine ⟨?_, ?_, ?_, by decide, by decide⟩
  · cases code <;> simp [setStatusLogArgs]
  · cases code <;>
      simp [setStatusLogArgs, spanStatusCodeKey, spanStatusDescriptionKey, Code.string]
  · intro h
    subst h
    rfl

/-- Witness for C4: at `SetStatus(Error, "boom")` the record carries both
pairs in order; at `SetStatus(OK, "boom")` the description key is absent. -/
theorem set_status_description_only_on_error_witness :
    setStatusLogArgs .error "boom"
      = [.str spanStatusCodeKey, .str (Code.string .error),
         .str spanStatusDescriptionKey, .str "boom"]
    ∧ ¬ (GoValue.str spanStatusDescriptionKey ∈ setStatusLogArgs .ok "boom") := by
  have he := set_status_description_only_on_error .error "boom"
  have ho := set_status_description_only_on_error .ok "boom"
  refine ⟨he.2.2.1 rfl, fun hmem => ?_⟩
  have := ho.2.1.mp hmem
  exact Code.noConfusion this

/-- C8: the span/log name derivation: the actor's `TracerName()` when it is
self-naming, the string itself for a string actor, fixed human-friendly names
for the standard-stream sentinels, the formatted type name otherwise; the
actor name and function name join with "." when both are non-empty, the
non-empty one stands alone otherwise, and both empty yields the fixed
placeholder; in particular actor `*Foo` with function name `"Operation"`
yields `"*Foo.Operation"`. -/
theorem span_naming_rules (s n t tn sn : String) :
    tracerName (.str s) = s
    ∧ tracerName (.tracerNamed n) = n
    ∧ tracerName .goNil = ""
    ∧ tracerName .stdin = "os.Stdin"
    ∧ tracerName .stdout = "os.Stdout"
    ∧ tracerName .stderr = "os.Stderr"
    ∧ tracerName .ioDiscard = "io.Discard"
    ∧ tracerName (.other t) = t
    ∧ (tn ≠ "" → sn ≠ "" → fmtSpanName tn sn = tn ++ "." ++ sn)
    ∧ (tn ≠ "" → fmtSpanName tn "" = tn)
    ∧ (sn ≠ "" → fmtSpanName "" sn = sn)
    ∧ fmtSpanName "" "" = "<unnamed_span>"
    ∧ fmtSpanName "*Foo" "Operation" = "*Foo.Operation" := by
  refine ⟨rfl, rfl, rfl, rfl, rfl, rfl, rfl, rfl, ?_, ?_, ?_, by decide, by decide⟩
  · intro h1 h2
    simp [fmtSpanName, bne, strLenZero, h1, h2]
  · intro h1
    simp [fmtSpanName, bne, strLenZero, h1, String.append_empty]
  · intro h2
    simp [fmtSpanName, bne, strLenZero, h2, String.empty_append]

/-- Witness for C8: concrete join, lone-name and placeholder instances. -/
theorem span_naming_rules_witness :
    fmtSpanName "worker" "doWork" = "worker.doWork"
    ∧ fmtSpanName "errorOperator" "" = "errorOperator"
    ∧ fmtSpanName "" "someOperationPre" = "someOperationPre" := by
  obtain ⟨-, -, -, -, -, -, -, -, hjoin, -, -, -, -⟩ :=
    span_naming_rules "a" "b" "c" "worker" "doWork"
  obtain ⟨-, -, -, -, -, -, -, -, -, hleft, -, -, -⟩ :=
    span_naming_rules "a" "b" "c" "errorOperator" ""
  obtain ⟨-, -, -, -, -, -, -, -, -, -, hright, -, -⟩ :=
    span_naming_rules "a" "b" "c" "" "someOperationPre"
  exact ⟨hjoin (by decide) (by decide), hleft (by decide), hright (by decide)⟩

/-- C9: a provider whose upstream does not implement `Shutdown`/`ForceFlush`
degrades to a no-op (`nil` is returned); when the upstream does implement
them, the single invocation's error is returned to the caller unchanged; the
package-level operations return `nil` for a provider that is not an SDK
provider and the operation's own result otherwise. -/
theorem sdk_lifecycle_fallback (u : UpstreamProvider) (e : Option GoErr) :
    (u.shutdownImpl = none → (fromUpstream u).Shutdown = none)
    ∧ (u.forceFlushImpl = none → (fromUpstream u).ForceFlush = none)
    ∧ (u.shutdownImpl = some e → (fromUpstream u).Shutdown = e)
    ∧ (u.forceFlushImpl = some e → (fromUpstream u).ForceFlush = e)
    ∧ callSDKProvider none = none
    ∧ callSDKProvider (some e) = e := by
  refine ⟨?_, ?_, ?_, ?_, rfl, rfl⟩ <;> intro h <;>
    simp [fromUpstream, UpstreamConverter.Shutdown, UpstreamConverter.ForceFlush, h]

/-- Witness for C9: an upstream implementing `Shutdown` with an error and
not implementing `ForceFlush` propagates the former and no-ops the latter. -/
theorem sdk_lifecycle_fallback_witness :
    (fromUpstream ⟨some (some ⟨"boom"⟩), none⟩).Shutdown = some ⟨"boom"⟩
    ∧ (fromUpstream ⟨some (some ⟨"boom"⟩), none⟩).ForceFlush = none := by
  have h := sdk_lifecycle_fallback ⟨some (some ⟨"boom"⟩), none⟩ (some ⟨"boom"⟩)
  exact ⟨h.2.2.1 rfl, h.2.1 rfl⟩

/-- C3: when the resolved logger (after the verbosity delta) is neither the
discard logger nor enabled, `Trace` short-circuits: no "starting span"
record or any other record is emitted, no span is created through the
configured provider, the returned span is a no-op span from the static
no-op tracer, and the returned logger is the resolved logger itself. -/
theorem trace_short_circuit (b : TracerBuilder) (ctx : Ctx) (fnName : String)
    (opts : List KeyValue)
    (h1 : isDiscard (resolveTraceLogger b ctx) = false)
    (h2 : (resolveTraceLogger b ctx).Enabled = false) :
    Trace b ctx fnName opts
      = { records := []
          spanViaProvider := false
          spanIsNoop := true
          retLogger := .plain (resolveTraceLogger b ctx)
          ctxLog := resolveTraceLogger b ctx } := by
  unfold Trace
  simp [h1, h2]

/-- Witness for C3: a sink-backed logger at verbosity 2 over a threshold of
1 is not discard and not enabled, so `Trace` short-circuits. -/
theorem trace_short_circuit_witness :
    Trace ⟨.goNil, some (.sink 2 1 []), 0, []⟩ ⟨none, .discard⟩ "op" []
      = { records := []
          spanViaProvider := false
          spanIsNoop := true
          retLogger := .plain (resolveTraceLogger ⟨.goNil, some (.sink 2 1 []), 0, []⟩
            ⟨none, .discard⟩)
          ctxLog := resolveTraceLogger ⟨.goNil, some (.sink 2 1 []), 0, []⟩
            ⟨none, .discard⟩ } :=
  trace_short_circuit ⟨.goNil, some (.sink 2 1 []), 0, []⟩ ⟨none, .discard⟩ "op" []
    (by decide) (by decide)

/-- C6: with a capture address registered, `End` invokes the configured
`ErrRegisterFunc` exactly once, with exactly the value the captured pointer
holds at `End` time, as the very first event — hence before the
"ending span" record, which occurs later in the event list; and the default
handler records the error on the span iff the value is non-nil, performing
no other action. -/
theorem end_invokes_err_register_once (s : LoggingSpan) (v : Option GoErr)
    (h : s.err = some v) :
    (∀ w, s.End.count (.errFnInvoked w) = if w = v then 1 else 0)
    ∧ s.End.head? = some (.errFnInvoked v)
    ∧ EndEvent.endingSpanLog ∈ s.End.tail
    ∧ (∀ e, DefaultErrRegisterFunc (some e) = [.recordError e])
    ∧ DefaultErrRegisterFunc none = [] := by
  have hEnd : s.End = .errFnInvoked v ::
      ((((match s.errFn with
          | some f => f
          | none => DefaultErrRegisterFunc) v).map EndEvent.act)
        ++ [.endingSpanLog, .underlyingEnd]) := by
    simp [LoggingSpan.End, h]
  refine ⟨?_, ?_, ?_, fun e => rfl, rfl⟩
  · intro w
    rw [hEnd]
    have hrest : ((((match s.errFn with
          | some f => f
          | none => DefaultErrRegisterFunc) v).map EndEvent.act)
        ++ [EndEvent.endingSpanLog, EndEvent.underlyingEnd]).count
          (EndEvent.errFnInvoked w) = 0 := by
      rw [List.count_eq_zero]
      intro hmem
      rcases List.mem_append.mp hmem with hm | hm
      · obtain ⟨a, -, ha⟩ := List.mem_map.mp hm
        exact EndEvent.noConfusion ha
      · simp at hm
    by_cases hw : w = v
    · subst hw
      simp [List.count_cons, hrest]
    · simp [List.count_cons, hrest, hw]
  · rw [hEnd]
    rfl
  · rw [hEnd]
    simp

/-- Witness for C6: a span whose capture cell holds a non-nil error and
whose `ErrRegisterFunc` field is nil invokes the handler once, first. -/
theorem end_invokes_err_register_once_witness :
    (LoggingSpan.End ⟨some (some ⟨"boom"⟩), none⟩).count
        (.errFnInvoked (some ⟨"boom"⟩)) = 1
    ∧ (LoggingSpan.End ⟨some (some ⟨"boom"⟩), none⟩).head?
        = some (.errFnInvoked (some ⟨"boom"⟩)) := by
  have h := end_invokes_err_register_once ⟨some (some ⟨"boom"⟩), none⟩
    (some ⟨"boom"⟩) rfl
  have hc := h.1 (some ⟨"boom"⟩)
  simp only [if_pos rfl] at hc
  exact ⟨hc, h.2.1⟩

/-- C7: a well-formed pair recorded through the Logger path surfaces on the
span with key `LogAttributePrefix ++ originalKey`; an attribute set directly
on the span surfaces in the log record's argument list with key
`SpanAttributePrefix ++ originalKey`; and the two prefixes differ. -/
theorem attribute_prefix_round_trip :
    (∀ (kv : List GoValue) (i : Nat) (k : String) (v : GoValue),
      kv.length % 2 = 0 →
      kv.get? (2 * i) = some (.str k) →
      kv.get? (2 * i + 1) = some v →
      (keysAndValuesToAttrs kv).get? i = some ⟨LogAttributePrefix ++ k, .val v⟩)
    ∧ (∀ (attrs : List KeyValue) (i : Nat) (a : KeyValue),
      attrs.get? i = some a →
      (kvListToLogAttrs attrs).get? (2 * i) = some (.str (SpanAttributePrefix ++ a.key)))
    ∧ LogAttributePrefix ≠ SpanAttributePrefix := by
  refine ⟨?_, ?_, by decide⟩
  · intro kv i k v heven hk hv
    obtain ⟨hlt, -⟩ := List.get?_eq_some.mp hk
    have hi : i < kv.length / 2 := by omega
    simp only [keysAndValuesToAttrs, heven]
    rw [if_neg (by simp)]
    rw [List.get?_map, List.get?_range hi]
    rw [List.get?_eq_getElem?] at hk hv
    simp [hk, hv]
  · intro attrs
    induction attrs with
    | nil =>
      intro i a ha
      simp at ha
    | cons x rest ih =>
      intro i a ha
      cases i with
      | zero =>
        simp at ha
        subst ha
        rfl
      | succ j =>
        simp only [List.get?_cons_succ] at ha
        have hj := ih j a ha
        have h2 : 2 * (j + 1) = 2 * j + 1 + 1 := by ring
        rw [h2]
        show (GoValue.str (SpanAttributePrefix ++ x.key) ::
          x.value.asInterface :: kvListToLogAttrs rest).get? (2 * j + 1 + 1) = _
        rw [List.get?_cons_succ, List.get?_cons_succ]
        exact hj

/-- Witness for C7: a concrete logged pair lands on the span with the
log-attribute prefix, a concrete span attribute surfaces in the log args
with the span-attribute prefix, and the prefixes differ. -/
theorem attribute_prefix_round_trip_witness :
    (keysAndValuesToAttrs [.str "hello", .int 7]).get? 0
      = some ⟨LogAttributePrefix ++ "hello", .val (.int 7)⟩
    ∧ (kvListToLogAttrs [⟨"result", .val (.str "ok")⟩]).get? 0
      = some (.str (SpanAttributePrefix ++ "result"))
    ∧ LogAttributePrefix ≠ SpanAttributePrefix := by
  have h := attribute_prefix_round_trip
  exact ⟨h.1 [.str "hello", .int 7] 0 "hello" (.int 7) (by decide) (by decide) (by decide),
    h.2.1 [⟨"result", .val (.str "ok")⟩] 0 ⟨"result", .val (.str "ok")⟩ (by decide),
    h.2.2⟩

end Deklarative
